import Mathlib

/-!
# Verification of the DataPrism app template ingestion pipeline and CDN loader

This development gives a shallow embedding, in Lean, of the client-side
tabular ingestion pipeline of the `FileUpload` component (CSV / JSON / TXT
parsing and column-type inference) and of the CDN script loader of
`src/utils/cdnLoader.ts`, and proves properties of those definitions.

JavaScript primitives that the source relies on (`String.prototype.split`,
`String.prototype.trim`, `Number(...)` string conversion, `JSON.parse`,
`Object.keys`, property access) are modelled explicitly below.  Machine
floating point is not modelled: numeric values are represented by `ℚ`
together with the three non-finite outcomes of JavaScript number conversion
(`NaN`, `Infinity`, `-Infinity`), which is exact for every question the
source asks of a number (the source only ever tests `isNaN`).
-/

namespace DataPrism

/-- The set of characters removed by `String.prototype.trim` (ECMAScript
WhiteSpace ∪ LineTerminator; the rarely used Unicode space separators other
than NBSP are included only through the common members). -/
def jsIsWhitespace (c : Char) : Bool :=
  c = ' ' || c = '\t' || c = '\n' || c = '\r' || c = '\x0b' || c = '\x0c' ||
  c = '\u00A0' || c = '\u2028' || c = '\u2029' || c = '\uFEFF'

/-- Model of `String.prototype.trim`: drop JS whitespace from both ends. -/
def jsTrim (s : String) : String :=
  String.mk (((s.data.dropWhile jsIsWhitespace).reverse.dropWhile jsIsWhitespace).reverse)

/-- Splitting a character list at every occurrence of a separator character.
This matches `String.prototype.split` with a one-character separator string:
the result is never empty, and splitting the empty string yields `[[]]`. -/
def splitChars (sep : Char) : List Char → List (List Char)
  | [] => [[]]
  | c :: cs =>
    if c = sep then [] :: splitChars sep cs
    else
      match splitChars sep cs with
      | [] => [[c]]
      | g :: gs => (c :: g) :: gs

/-- Model of `s.split(sep)` for a one-character separator (the source only
splits on `"\n"`, `","` and `"."`). -/
def jsSplit (s : String) (sep : Char) : List String :=
  (splitChars sep s.data).map String.mk

/-- Right inverse of `splitChars`: join groups with the separator. -/
def joinChars (sep : Char) : List (List Char) → List Char
  | [] => []
  | [g] => g
  | g :: gs => g ++ sep :: joinChars sep gs

/-- Model of `String.prototype.toLowerCase` (ASCII range; the source lowers
only file-extension text). -/
def jsToLower (s : String) : String := String.mk (s.data.map Char.toLower)

/-- Model of `s.replace(/"/g, "")`: remove every double-quote character. -/
def stripQuotes (s : String) : String := String.mk (s.data.filter (fun c => ¬ c = '\x22'))

/-- Model of `Array.prototype.join(", ")` used for the accepted-types text. -/
def joinCommaSpace : List String → String
  | [] => ""
  | [s] => s
  | s :: rest => s ++ ", " ++ joinCommaSpace rest

/-- Outcome of JavaScript number conversion: `NaN`, `±Infinity`, or a finite
value (represented exactly as a rational). -/
inductive JNum where
  | nan
  | posInf
  | negInf
  | fin (q : ℚ)
deriving Repr, DecidableEq

/-- Digits helper: value of a decimal digit character, if it is one. -/
def digitVal (c : Char) : Option Nat :=
  if '0' ≤ c ∧ c ≤ '9' then some (c.toNat - '0'.toNat) else none

/-- Value of a list of decimal digit characters (most significant first). -/
def decDigitsVal : List Char → Option Nat
  | [] => none
  | cs => cs.foldlM (fun acc c => (digitVal c).map (fun d => acc * 10 + d)) 0

/-- Value of a hexadecimal digit character, if it is one. -/
def hexDigitVal (c : Char) : Option Nat :=
  if '0' ≤ c ∧ c ≤ '9' then some (c.toNat - '0'.toNat)
  else if 'a' ≤ c ∧ c ≤ 'f' then some (c.toNat - 'a'.toNat + 10)
  else if 'A' ≤ c ∧ c ≤ 'F' then some (c.toNat - 'A'.toNat + 10)
  else none

/-- Value of a list of digits in a given base. -/
def baseDigitsVal (base : Nat) (dv : Char → Option Nat) : List Char → Option Nat
  | [] => none
  | cs => cs.foldlM (fun acc c => (dv c).map (fun d => acc * base + d)) 0

/-- An unsigned decimal literal body per the ECMAScript `StrUnsignedDecimalLiteral`
grammar: `Infinity`, `digits [. digits] [exp]`, or `. digits [exp]`.  Returns
`none` when the characters do not form such a literal. -/
def parseDecimalBody (cs : List Char) : Option JNum :=
  if cs = "Infinity".data then some JNum.posInf
  else
    let intPart := cs.takeWhile (fun c => (digitVal c).isSome)
    let rest1 := cs.dropWhile (fun c => (digitVal c).isSome)
    let (fracPart, rest2) :=
      match rest1 with
      | '.' :: r =>
        (r.takeWhile (fun c => (digitVal c).isSome), r.dropWhile (fun c => (digitVal c).isSome))
      | r => ([], r)
    if intPart = [] ∧ fracPart = [] then none
    else
      let mantissa : ℚ :=
        (intPart.foldl (fun acc c => acc * 10 + ((digitVal c).getD 0)) 0 : Nat) +
        (fracPart.foldl (fun acc c => acc * 10 + ((digitVal c).getD 0)) 0 : Nat) /
          ((10 : ℚ) ^ fracPart.length)
      match rest2 with
      | [] => some (JNum.fin mantissa)
      | e :: r =>
        if e = 'e' ∨ e = 'E' then
          let (sign, digits) :=
            match r with
            | '+' :: d => ((1 : Int), d)
            | '-' :: d => ((-1 : Int), d)
            | d => ((1 : Int), d)
          if digits ≠ [] ∧ digits.all (fun c => (digitVal c).isSome) then
            let ex : Nat := digits.foldl (fun acc c => acc * 10 + ((digitVal c).getD 0)) 0
            if sign = 1 then some (JNum.fin (mantissa * (10 : ℚ) ^ ex))
            else some (JNum.fin (mantissa / (10 : ℚ) ^ ex))
          else none
        else none

/-- Model of ECMAScript `StringToNumber` (`Number(s)` for a string `s`): trim
JS whitespace; the empty remainder is `0`; otherwise an optional sign followed
by `Infinity` or a decimal literal, or an unsigned `0x`/`0o`/`0b` radix
literal; anything else is `NaN`. -/
def stringToNumber (s : String) : JNum :=
  let cs := (jsTrim s).data
  match cs with
  | [] => JNum.fin 0
  | '+' :: body =>
    match parseDecimalBody body with
    | some n => n
    | none => JNum.nan
  | '-' :: body =>
    match parseDecimalBody body with
    | some JNum.posInf => JNum.negInf
    | some (JNum.fin q) => JNum.fin (-q)
    | _ => JNum.nan
  | '0' :: x :: body =>
    if x = 'x' ∨ x = 'X' then
      match baseDigitsVal 16 hexDigitVal body with
      | some n => JNum.fin n
      | none => JNum.nan
    else if x = 'o' ∨ x = 'O' then
      match baseDigitsVal 8 (fun c => if '0' ≤ c ∧ c ≤ '7' then digitVal c else none) body with
      | some n => JNum.fin n
      | none => JNum.nan
    else if x = 'b' ∨ x = 'B' then
      match baseDigitsVal 2 (fun c => if c = '0' ∨ c = '1' then digitVal c else none) body with
      | some n => JNum.fin n
      | none => JNum.nan
    else
      match parseDecimalBody cs with
      | some n => n
      | none => JNum.nan
  | _ =>
    match parseDecimalBody cs with
    | some n => n
    | none => JNum.nan

end DataPrism

namespace DataPrism

/-- JavaScript values as they occur in the ingestion pipeline: results of
`JSON.parse` plus the row objects the CSV/TXT parsers build.  (`undefined`
is represented, where it can occur, by `Option` at the use site.) -/
inductive JVal where
  | null
  | bool (b : Bool)
  | num (q : ℚ)
  | str (s : String)
  | arr (elems : List JVal)
  | obj (fields : List (String × JVal))

/-- Decimal digit characters of a natural number, most significant first. -/
def natDigits (n : Nat) : List Char :=
  (Nat.toDigits 10 n)

/-- JavaScript decimal printing of a rational whose denominator divides a
power of ten (the only values produced by the JSON and CSV parsers):
integer part, then the fractional digits without trailing zeros.  Matches
`String(n)` for such numbers. -/
def ratToString (q : ℚ) : String :=
  let sign := if q < 0 then "-" else ""
  let a := |q|
  let ip := a.floor.toNat
  let rec fracDigits : Nat → ℚ → List Char
    | 0, _ => []
    | fuel + 1, r =>
      if r = 0 then []
      else
        let r10 := r * 10
        let d := r10.floor.toNat
        (Char.ofNat ('0'.toNat + d)) :: fracDigits fuel (r10 - r10.floor)
  let fr := fracDigits 30 (a - a.floor)
  sign ++ String.mk (natDigits ip) ++ (if fr = [] then "" else "." ++ String.mk fr)

mutual

/-- ECMAScript `ToString` on the values above, as used when a non-string is
handed to `Number(...)` or `Date.parse(...)` (arrays stringify through
`Array.prototype.join(",")` with `null` mapped to the empty string; plain
objects stringify to `"[object Object]"`). -/
def jsToStr : JVal → String
  | JVal.null => "null"
  | JVal.bool b => if b then "true" else "false"
  | JVal.num q => ratToString q
  | JVal.str s => s
  | JVal.arr xs => String.intercalate "," (jsToStrElems xs)
  | JVal.obj _ => "[object Object]"

def jsToStrElems : List JVal → List String
  | [] => []
  | JVal.null :: rest => "" :: jsToStrElems rest
  | v :: rest => jsToStr v :: jsToStrElems rest

end

/-- Model of `Number(v)` on the values above (`ToNumber`): numbers are
themselves, booleans are 0/1, `null` is 0, strings go through
`StringToNumber`, arrays and objects are first coerced to a string. -/
def jsToNumber : JVal → JNum
  | JVal.null => JNum.fin 0
  | JVal.bool b => JNum.fin (if b then 1 else 0)
  | JVal.num q => JNum.fin q
  | JVal.str s => stringToNumber s
  | JVal.arr xs => stringToNumber (jsToStr (JVal.arr xs))
  | JVal.obj fs => stringToNumber (jsToStr (JVal.obj fs))

/-- Days in a month of a (proleptic Gregorian) year, for date validation. -/
def daysInMonth (year month : Nat) : Nat :=
  if month = 2 then
    if year % 4 = 0 ∧ (year % 100 ≠ 0 ∨ year % 400 = 0) then 29 else 28
  else if month = 4 ∨ month = 6 ∨ month = 9 ∨ month = 11 then 30
  else 31

/-- Fixed-width run of decimal digits with its value. -/
def takeDigits (n : Nat) (cs : List Char) : Option (Nat × List Char) :=
  let ds := cs.take n
  if ds.length = n ∧ ds.all (fun c => (digitVal c).isSome) then
    some (ds.foldl (fun acc c => acc * 10 + ((digitVal c).getD 0)) 0, cs.drop n)
  else none

/-- Time-zone suffix of an ISO 8601 date-time: `Z`, `+HH:mm` or `-HH:mm`. -/
def parseTimeZone : List Char → Option (List Char)
  | 'Z' :: rest => some rest
  | c :: rest =>
    if c = '+' ∨ c = '-' then
      match takeDigits 2 rest with
      | some (hh, ':' :: r2) =>
        match takeDigits 2 r2 with
        | some (mm, r3) => if hh ≤ 23 ∧ mm ≤ 59 then some r3 else none
        | none => none
      | _ => none
    else none
  | [] => none

/-- Time part `HH:mm[:ss[.sss]]` of an ISO 8601 date-time. -/
def parseTimePart (cs : List Char) : Option (List Char) :=
  match takeDigits 2 cs with
  | some (hh, ':' :: r1) =>
    match takeDigits 2 r1 with
    | some (mm, r2) =>
      if hh ≤ 24 ∧ mm ≤ 59 then
        match r2 with
        | ':' :: r3 =>
          match takeDigits 2 r3 with
          | some (ss, r4) =>
            if ss ≤ 59 then
              match r4 with
              | '.' :: r5 =>
                match takeDigits 3 r5 with
                | some (_, r6) => some r6
                | none => none
              | _ => some r4
            else none
          | none => none
        | _ => some r2
      else none
    | none => none
  | _ => none

/-- Recogniser for the ISO 8601 date-time format that `Date.parse` is
required by ECMAScript to accept (`YYYY[-MM[-DD]][THH:mm[:ss[.sss]][tz]]`,
with calendar-valid month and day).  Host engines additionally accept
implementation-defined formats; those are outside this model, which is only
applied to strings that are clearly dates or clearly not dates. -/
def isoDateTimeValid (s : String) : Bool :=
  let step : Option (Nat × Nat × List Char) :=
    match takeDigits 4 s.data with
    | some (y, rest) =>
      match rest with
      | '-' :: r1 =>
        match takeDigits 2 r1 with
        | some (m, r2) =>
          if 1 ≤ m ∧ m ≤ 12 then
            match r2 with
            | '-' :: r3 =>
              match takeDigits 2 r3 with
              | some (d, r4) => if 1 ≤ d ∧ d ≤ daysInMonth y m then some (y, m, r4) else none
              | none => none
            | _ => some (y, m, r2)
          else none
        | none => none
      | _ => some (y, 1, rest)
    | none => none
  match step with
  | none => false
  | some (_, _, rest) =>
    match rest with
    | [] => true
    | 'T' :: tr =>
      match parseTimePart tr with
      | some r =>
        (r = []) || (match parseTimeZone r with | some [] => true | _ => false)
      | none => false
    | _ => false

/-- Model of `!isNaN(Date.parse(v))`: coerce to a string and test the ISO
date-time recogniser. -/
def jsDateParseValid (v : JVal) : Bool :=
  isoDateTimeValid (jsToStr v)

end DataPrism

namespace DataPrism

/-- Canonical array-index property names: `k` addresses element `i` of an
array (or code unit `i` of a string) exactly when `k` is the canonical
decimal representation of `i`. -/
def canonicalIndex (s : String) : Option Nat :=
  match s.data with
  | [] => none
  | ['0'] => some 0
  | '0' :: _ => none
  | cs =>
    if cs.all (fun c => (digitVal c).isSome) then
      some (cs.foldl (fun acc c => acc * 10 + ((digitVal c).getD 0)) 0)
    else none

/-- Model of `Object.keys(v)`: own enumerable property names.  A `null`
receiver throws a `TypeError`; objects list their field names in insertion
order; arrays and strings list their index strings; other primitives have no
own enumerable properties. -/
def jsObjectKeys : JVal → Except String (List String)
  | JVal.null => Except.error "Cannot convert undefined or null to object"
  | JVal.obj fields => Except.ok (fields.map (fun f => f.1))
  | JVal.arr xs => Except.ok ((List.range xs.length).map (fun i => String.mk (natDigits i)))
  | JVal.str s => Except.ok ((List.range s.length).map (fun i => String.mk (natDigits i)))
  | JVal.bool _ => Except.ok []
  | JVal.num _ => Except.ok []

/-- Model of the property access `v[k]`: `.ok none` is JavaScript
`undefined`, a `null` receiver throws a `TypeError`.  Own properties only
(plus `length` on arrays and strings); inherited prototype methods are not
modelled — no column name in this development names one. -/
def jsGetProp : JVal → String → Except String (Option JVal)
  | JVal.null, _ => Except.error "Cannot read properties of null"
  | JVal.obj fields, k => Except.ok ((fields.lookup k).map id)
  | JVal.arr xs, k =>
    if k = "length" then Except.ok (some (JVal.num xs.length))
    else Except.ok ((canonicalIndex k).bind (fun i => xs.get? i))
  | JVal.str s, k =>
    if k = "length" then Except.ok (some (JVal.num s.length))
    else Except.ok ((canonicalIndex k).bind (fun i => (s.data.get? i).map
      (fun c => JVal.str (String.mk [c]))))
  | JVal.bool _, _ => Except.ok none
  | JVal.num _, _ => Except.ok none

/-- JSON whitespace (exactly space, tab, line feed, carriage return). -/
def jsonWs (c : Char) : Bool := c = ' ' || c = '\t' || c = '\n' || c = '\r'

/-- Drop leading JSON whitespace. -/
def skipWs (cs : List Char) : List Char := cs.dropWhile jsonWs

/-- Property assignment `o[k] = v` on a plain object: an existing key keeps
its position and takes the new value, a new key is appended.  `JSON.parse`
resolves duplicate member names the same way (last value wins). -/
def insertField : List (String × JVal) → String → JVal → List (String × JVal)
  | [], k, v => [(k, v)]
  | (k0, v0) :: rest, k, v =>
    if k0 = k then (k0, v) :: rest else (k0, v0) :: insertField rest k v

/-- Body of a JSON string after the opening quote: returns the decoded
characters and the input following the closing quote.  `\uXXXX` escapes that
do not form a Unicode scalar value are mapped to the replacement default of
`Char.ofNat` (irrelevant to this development: no claim uses escapes). -/
def parseJsonStringRest : List Char → Option (List Char × List Char)
  | [] => none
  | '\x22' :: r => some ([], r)
  | '\\' :: 'u' :: a :: b :: c :: d :: r =>
    match hexDigitVal a, hexDigitVal b, hexDigitVal c, hexDigitVal d with
    | some ha, some hb, some hc, some hd =>
      (parseJsonStringRest r).map (fun p =>
        (Char.ofNat (((ha * 16 + hb) * 16 + hc) * 16 + hd) :: p.1, p.2))
    | _, _, _, _ => none
  | '\\' :: e :: r =>
    let dec : Option Char :=
      if e = '\x22' then some '\x22'
      else if e = '\\' then some '\\'
      else if e = '/' then some '/'
      else if e = 'b' then some '\x08'
      else if e = 'f' then some '\x0c'
      else if e = 'n' then some '\n'
      else if e = 'r' then some '\r'
      else if e = 't' then some '\t'
      else none
    match dec with
    | some ch => (parseJsonStringRest r).map (fun p => (ch :: p.1, p.2))
    | none => none
  | c :: r =>
    if c.toNat < 0x20 then none
    else (parseJsonStringRest r).map (fun p => (c :: p.1, p.2))

/-- A JSON number per the JSON grammar
(`-? (0 | [1-9][0-9]*) frac? exp?`), with its exact rational value. -/
def parseJsonNumber (cs : List Char) : Option (ℚ × List Char) :=
  let (neg, cs1) := match cs with | '-' :: r => (true, r) | r => (false, r)
  let (intDigits, rest1) :=
    match cs1 with
    | '0' :: r => (['0'], r)
    | _ => (cs1.takeWhile (fun c => (digitVal c).isSome),
            cs1.dropWhile (fun c => (digitVal c).isSome))
  if intDigits = [] then none
  else
    let intVal : Nat := intDigits.foldl (fun acc c => acc * 10 + ((digitVal c).getD 0)) 0
    let (fracDigits, rest2) :=
      match rest1 with
      | '.' :: r => (r.takeWhile (fun c => (digitVal c).isSome),
                     r.dropWhile (fun c => (digitVal c).isSome))
      | _ => ([], rest1)
    let fracBad : Bool := match rest1 with | '.' :: _ => fracDigits = [] | _ => false
    if fracBad then none
    else
      let mantissa : ℚ :=
        (intVal : ℚ) +
        (fracDigits.foldl (fun acc c => acc * 10 + ((digitVal c).getD 0)) 0 : Nat) /
          ((10 : ℚ) ^ fracDigits.length)
      let signed := if neg then -mantissa else mantissa
      match rest2 with
      | e :: r =>
        if e = 'e' ∨ e = 'E' then
          let (esign, r1) :=
            match r with
            | '+' :: d => ((1 : Int), d)
            | '-' :: d => ((-1 : Int), d)
            | d => ((1 : Int), d)
          let eDigits := r1.takeWhile (fun c => (digitVal c).isSome)
          let rest3 := r1.dropWhile (fun c => (digitVal c).isSome)
          if eDigits = [] then none
          else
            let ex : Nat := eDigits.foldl (fun acc c => acc * 10 + ((digitVal c).getD 0)) 0
            some ((if esign = 1 then signed * (10 : ℚ) ^ ex else signed / (10 : ℚ) ^ ex), rest3)
        else some (signed, rest2)
      | [] => some (signed, [])

mutual

/-- Fuel-indexed recursive-descent parser for a JSON value (the model of
`JSON.parse`; `jsonParse` supplies ample fuel). -/
def parseJsonValue : Nat → List Char → Option (JVal × List Char)
  | 0, _ => none
  | fuel + 1, cs =>
    match skipWs cs with
    | 'n' :: 'u' :: 'l' :: 'l' :: r => some (JVal.null, r)
    | 't' :: 'r' :: 'u' :: 'e' :: r => some (JVal.bool true, r)
    | 'f' :: 'a' :: 'l' :: 's' :: 'e' :: r => some (JVal.bool false, r)
    | '\x22' :: r => (parseJsonStringRest r).map (fun p => (JVal.str (String.mk p.1), p.2))
    | '[' :: r =>
      (match skipWs r with
       | ']' :: r2 => some (JVal.arr [], r2)
       | _ => (parseJsonElems fuel r).map (fun p => (JVal.arr p.1, p.2)))
    | '{' :: r =>
      (match skipWs r with
       | '}' :: r2 => some (JVal.obj [], r2)
       | _ => (parseJsonMembers fuel r []).map (fun p => (JVal.obj p.1, p.2)))
    | cs2 => (parseJsonNumber cs2).map (fun p => (JVal.num p.1, p.2))

/-- Comma-separated JSON array elements up to the closing bracket. -/
def parseJsonElems : Nat → List Char → Option (List JVal × List Char)
  | 0, _ => none
  | fuel + 1, cs =>
    match parseJsonValue fuel cs with
    | some (v, rest) =>
      (match skipWs rest with
       | ',' :: r2 => (parseJsonElems fuel r2).map (fun p => (v :: p.1, p.2))
       | ']' :: r2 => some ([v], r2)
       | _ => none)
    | none => none

/-- Comma-separated JSON object members up to the closing brace, accumulated
with `insertField` so that a duplicated name keeps the last value. -/
def parseJsonMembers : Nat → List Char → List (String × JVal) →
    Option (List (String × JVal) × List Char)
  | 0, _, _ => none
  | fuel + 1, cs, acc =>
    match skipWs cs with
    | '\x22' :: r =>
      (match parseJsonStringRest r with
       | some (key, r1) =>
         (match skipWs r1 with
          | ':' :: r2 =>
            (match parseJsonValue fuel r2 with
             | some (v, r3) =>
               let acc2 := insertField acc (String.mk key) v
               (match skipWs r3 with
                | ',' :: r4 => parseJsonMembers fuel r4 acc2
                | '}' :: r4 => some (acc2, r4)
                | _ => none)
             | none => none)
          | _ => none)
       | none => none)
    | _ => none

end

/-- Model of `JSON.parse` (the error text is never inspected by the source:
`parseJSON` maps every failure to its own fixed message). -/
def jsonParse (s : String) : Except String JVal :=
  match parseJsonValue (2 * s.length + 8) s.data with
  | some (v, rest) =>
    if skipWs rest = [] then Except.ok v
    else Except.error "Unexpected non-whitespace character after JSON data"
  | none => Except.error "Unexpected token in JSON"

end DataPrism

namespace DataPrism

/-- The column types the pipeline can infer. -/
inductive ColType where
  | string
  | number
  | boolean
  | date
deriving Repr, DecidableEq

/-- `{ name, type, nullable }` of the source's column descriptors. -/
structure ColumnDescriptor where
  name : String
  type : ColType
  nullable : Bool
deriving Repr, DecidableEq

/-- Row/column counts and the serialized-size approximation of memory use
(`new Blob([text]).size / (1024 * 1024)`); the processing-time field is
merged in later by the caller of `parseFile` and carries no parsing
content, so it is not part of this model. -/
structure DatasetSummary where
  rowCount : Nat
  columnCount : Nat
  memoryUsage : ℚ
deriving Repr, DecidableEq

/-- The parsed dataset produced by the parsing strategies. -/
structure ParsedData where
  data : List JVal
  columns : List ColumnDescriptor
  errors : List String
  summary : DatasetSummary

/-- The filter of `inferColumnType`'s sampling step:
`v != null && v !== ''` on a present value. -/
def keepSampleValue : JVal → Bool
  | JVal.null => false
  | JVal.str s => !(s == "")
  | _ => true

/-- `!isNaN(Number(v))`. -/
def isNumericValue (v : JVal) : Bool :=
  match jsToNumber v with
  | JNum.nan => false
  | _ => true

/-- `v === 'true' || v === 'false' || v === true || v === false`. -/
def isBooleanValue : JVal → Bool
  | JVal.str s => s == "true" || s == "false"
  | JVal.bool _ => true
  | _ => false

/-- `array.map(f)` for a per-element step that can throw: elements are
visited left to right and the first thrown error aborts the whole map. -/
def mapExcept (f : α → Except ε β) : List α → Except ε (List β)
  | [] => Except.ok []
  | a :: as => do
    let b ← f a
    let bs ← mapExcept f as
    pure (b :: bs)

/-- The sampling step of `inferColumnType`:
`data.slice(0, 10).map(row => row[columnName]).filter(v => v != null && v !== '')`.
A `null` row makes the member access throw, hence the `Except`. -/
def inferSample (data : List JVal) (columnName : String) : Except String (List JVal) := do
  let vals ← mapExcept (fun row => jsGetProp row columnName) (data.take 10)
  pure ((vals.filterMap id).filter keepSampleValue)

/-- `inferColumnType` of the `FileUpload` component: infer a column type
from at most the first 10 rows, testing number, then boolean, then date. -/
def inferColumnType (data : List JVal) (columnName : String) : Except String ColType := do
  let sampleValues ← inferSample data columnName
  if sampleValues.length = 0 then pure ColType.string
  else if sampleValues.all isNumericValue then pure ColType.number
  else if sampleValues.all isBooleanValue then pure ColType.boolean
  else if sampleValues.all jsDateParseValid then pure ColType.date
  else pure ColType.string

/-- Field processing shared by the CSV header and data cells:
`h.trim().replace(/"/g, "")`. -/
def processField (f : String) : String := stripQuotes (jsTrim f)

/-- `headers.forEach((header, index) => { row[header] = values[index] || ""; })`:
a missing or empty cell becomes the empty string; a duplicated header keeps
its position and takes the later value. -/
def buildRow : List (String × JVal) → List String → List String → List (String × JVal)
  | row, [], _ => row
  | row, h :: hs, vs => buildRow (insertField row h (JVal.str (vs.headD ""))) hs vs.tail

/-- One CSV data line turned into a row object. -/
def csvRow (headers : List String) (line : String) : JVal :=
  let values := (jsSplit line ',').map processField
  JVal.obj (buildRow [] headers values)

/-- `new Blob([text]).size / (1024 * 1024)`: UTF-8 byte length in MiB. -/
def memoryUsageMB (text : String) : ℚ := (text.utf8ByteSize : ℚ) / (1024 * 1024)

/-- `parseCSV` of the `FileUpload` component. -/
def parseCSV (text : String) : Except String ParsedData := do
  let lines := jsSplit (jsTrim text) '\n'
  if lines.length = 0 then
    Except.error "CSV file is empty"
  else do
    let headers := (jsSplit (lines.headD "") ',').map processField
    let dataRows := (lines.drop 1).map (csvRow headers)
    let columns ← mapExcept (fun name => do
      let t ← inferColumnType dataRows name
      pure (ColumnDescriptor.mk name t true)) headers
    pure { data := dataRows, columns := columns, errors := [],
           summary := { rowCount := dataRows.length, columnCount := headers.length,
                        memoryUsage := memoryUsageMB text } }

/-- The body of `parseJSON` inside its `try` block, with each `throw`
surfaced as an `Except.error` carrying the thrown message. -/
def parseJSONBody (text : String) : Except String ParsedData := do
  let parsed ← jsonParse text
  let data := match parsed with | JVal.arr xs => xs | v => [v]
  if data.length = 0 then
    Except.error "JSON file contains no data"
  else do
    let sampleRow := data.headD JVal.null
    let columnNames ← jsObjectKeys sampleRow
    let columns ← mapExcept (fun name => do
      let t ← inferColumnType data name
      pure (ColumnDescriptor.mk name t true)) columnNames
    pure { data := data, columns := columns, errors := [],
           summary := { rowCount := data.length, columnCount := columnNames.length,
                        memoryUsage := memoryUsageMB text } }

/-- `parseJSON` of the `FileUpload` component: its `catch` replaces every
failure of the body by the fixed message `Invalid JSON format`. -/
def parseJSON (text : String) : Except String ParsedData :=
  match parseJSONBody text with
  | Except.ok d => Except.ok d
  | Except.error _ => Except.error "Invalid JSON format"

/-- `parseTXT` of the `FileUpload` component: one row per non-blank line. -/
def parseTXT (text : String) : ParsedData :=
  let lines := (jsSplit (jsTrim text) '\n').filter (fun line => !(jsTrim line == ""))
  let dataRows := lines.mapIdx (fun index line =>
    JVal.obj [("id", JVal.num ((index : ℚ) + 1)), ("text", JVal.str line)])
  { data := dataRows,
    columns := [ColumnDescriptor.mk "id" ColType.number false,
                ColumnDescriptor.mk "text" ColType.string false],
    errors := [],
    summary := { rowCount := dataRows.length, columnCount := 2,
                 memoryUsage := memoryUsageMB text } }

/-- A user-supplied file as the upload handler sees it: name, byte size,
text content. -/
structure JSFile where
  name : String
  size : Nat
  content : String

/-- `"." + file.name.split(".").pop()?.toLowerCase()` (the `split` result is
never empty, so `pop` is its last element). -/
def extOf (name : String) : String :=
  "." ++ jsToLower ((jsSplit name '.').getLastD "")

/-- `parseFile` of the `FileUpload` component: dispatch on the extension. -/
def parseFile (file : JSFile) : Except String ParsedData :=
  let fileExtension := extOf file.name
  if fileExtension = ".csv" then parseCSV file.content
  else if fileExtension = ".json" then parseJSON file.content
  else if fileExtension = ".txt" then Except.ok (parseTXT file.content)
  else Except.error ("Unsupported file type: " ++ fileExtension)

/-- The component's default `acceptedTypes` prop. -/
def defaultAcceptedTypes : List String := [".csv", ".json", ".txt"]

/-- `handleFile` of the `FileUpload` component up to the parse result: the
extension is validated first (before the file's contents are read), then the
size bound (`maxSize` megabytes), then `parseFile` runs.  An `Except.error`
is the message the component displays via `setError`. -/
def handleFile (acceptedTypes : List String) (maxSize : Nat) (file : JSFile) :
    Except String ParsedData :=
  let fileExtension := extOf file.name
  if ¬ fileExtension ∈ acceptedTypes then
    Except.error ("File type " ++ fileExtension ++ " not supported. Accepted types: " ++
      joinCommaSpace acceptedTypes)
  else if file.size > maxSize * 1024 * 1024 then
    Except.error ("File too large. Maximum size: " ++ toString maxSize ++ "MB")
  else parseFile file

/-- `(Number(v))` lands on a finite value — the reading of the spec's
"converts cleanly to a finite number" (claim C4's reference definition). -/
def isFiniteNumericValue (v : JVal) : Bool :=
  match jsToNumber v with
  | JNum.fin _ => true
  | _ => false

/-- The sample of the reference definitions: the column's values from at
most the first 10 rows, null/empty entries discarded. -/
def specSample (data : List JVal) (columnName : String) : List JVal :=
  ((data.take 10).filterMap (fun row => ((jsGetProp row columnName).toOption).join)).filter
    keepSampleValue

/-- Claim C4's reference definition of column-type inference, following the
spec's words: empty sample defaults to `string`; else `number` iff every
sampled value converts cleanly to a finite number; else `boolean` iff every
sampled value is exactly `"true"`/`"false"` (string or boolean); else `date`
iff every sampled value parses as a valid date-time; else `string`. -/
def specInferColumnType (data : List JVal) (columnName : String) : ColType :=
  let sample := specSample data columnName
  if sample.isEmpty then ColType.string
  else if sample.all isFiniteNumericValue then ColType.number
  else if sample.all isBooleanValue then ColType.boolean
  else if sample.all jsDateParseValid then ColType.date
  else ColType.string

/-- The reference definition amended as the counterexample forces: the
numeric test asks for a non-`NaN` conversion (so `"Infinity"` counts as
numeric), exactly as the code's `!isNaN(Number(v))` does.  Everything else
is unchanged from `specInferColumnType`. -/
def specInferColumnTypeAmended (data : List JVal) (columnName : String) : ColType :=
  let sample := specSample data columnName
  if sample.isEmpty then ColType.string
  else if sample.all isNumericValue then ColType.number
  else if sample.all isBooleanValue then ColType.boolean
  else if sample.all jsDateParseValid then ColType.date
  else ColType.string

end DataPrism

namespace DataPrism

/-- The engine handle installed in the shared global namespace
(`window.DataPrism`).  `isMock` is the marker flag of the stub; the mock's
engine methods act only through callbacks and timers and carry no
loader-relevant state, so the handle is modelled by its identifying
fields. -/
structure Handle where
  version : String
  isLoadedFlag : Bool
  isMock : Bool
deriving Repr, DecidableEq

/-- The stub handle `createMockDataPrism` builds and installs:
`{ version: "1.0.0-template-mock", isLoaded: true, isMock: true }`. -/
def mockDataPrism : Handle :=
  { version := "1.0.0-template-mock", isLoadedFlag := true, isMock := true }

/-- The module-level `loaderState` record of `cdnLoader.ts`. -/
structure LoaderState where
  isLoaded : Bool
  isLoading : Bool
  error : Option String
  loadTime : Option Nat
deriving Repr, DecidableEq

/-- `loaderState`'s initial value. -/
def initialLoaderState : LoaderState :=
  { isLoaded := false, isLoading := false, error := none, loadTime := none }

/-- The shared global namespace as the loader touches it: the engine handle
slot and whether Apache Arrow has been installed. -/
structure Window where
  dataPrism : Option Handle
  arrow : Bool
deriving Repr, DecidableEq

/-- Outcome of one script-insertion attempt, supplied by the environment:
the script errors out / times out, or it loads and leaves the global engine
slot as `sets` describes (`some h` — the script defined `window.DataPrism :=
h`; `none` — it defined nothing). -/
inductive AttemptOutcome where
  | scriptFail (msg : String)
  | scriptOk (sets : Option Handle)
deriving Repr, DecidableEq

/-- The environment of one load run: whether the local Apache Arrow import
succeeds, and the outcome of each successive script-insertion attempt. -/
structure LoadEnv where
  arrowImportOk : Bool
  attempts : List AttemptOutcome
deriving Repr, DecidableEq

/-- `ensureApacheArrowAvailable`: a no-op when Arrow is already global;
otherwise the local import either installs it or aborts the load. -/
def ensureArrow (env : LoadEnv) (win : Window) : Except String Window :=
  if win.arrow then Except.ok win
  else if env.arrowImportOk then Except.ok { win with arrow := true }
  else Except.error "Apache Arrow is required for DataPrism but could not be loaded"

/-- Result of the retry loop: the window after a successful attempt (`none`
when all attempts failed), the `lastError` message, and how many
script-insertion attempts were made. -/
structure AttemptsOut where
  success : Option Window
  lastError : Option String
  made : Nat
deriving Repr, DecidableEq

/-- The `while (attempt < retries)` loop of `loadDataPrismFromCDN`: each
iteration inserts the script once; on a load it checks that the engine
appeared in the global slot (its absence is a caught failure like a script
error), stopping at the first attempt after which the slot is non-empty. -/
def runAttempts (env : LoadEnv) (win : Window) (lastErr : Option String) :
    Nat → Nat → AttemptsOut
  | _, 0 => { success := none, lastError := lastErr, made := 0 }
  | attempt, fuel + 1 =>
    match env.attempts.getD attempt (AttemptOutcome.scriptFail "Script loading error") with
    | AttemptOutcome.scriptFail m =>
      let out := runAttempts env win (some m) (attempt + 1) fuel
      { out with made := out.made + 1 }
    | AttemptOutcome.scriptOk sets =>
      let win2 : Window :=
        match sets with
        | some h => { win with dataPrism := some h }
        | none => win
      match win2.dataPrism with
      | some _ => { success := some win2, lastError := lastErr, made := 1 }
      | none =>
        let out := runAttempts env win2
          (some "DataPrism not found on window after script load") (attempt + 1) fuel
        { out with made := out.made + 1 }

/-- The retry count hardcoded in `loadDataPrismFromCDN`. -/
def loaderRetries : Nat := 3

/-- What one call to `loadDataPrismFromCDN` produces: the settled promise
(`Except.ok` resolution carrying `window.DataPrism`, `Except.error`
rejection), the loader state and window afterwards, and how many
script-insertion attempts the call itself made. -/
structure LoadOut where
  result : Except String (Option Handle)
  st : LoaderState
  win : Window
  fetches : Nat
deriving Repr

/-- `waitForLoad` as the polling caller experiences it once the in-flight
load has settled (`stFinal`, `winFinal` are the loader state and window at
that moment), followed by `return window.DataPrism`.  A poll tick that still
sees `isLoading` keeps waiting; the 30 s wait timeout is reached only when
the in-flight load never settles, which the model expresses by `stFinal`
still being `isLoading`. -/
def awaitInflight (stFinal : LoaderState) (winFinal : Window) : Except String (Option Handle) :=
  if stFinal.isLoading then Except.error "Wait for load timeout"
  else if stFinal.isLoaded then Except.ok winFinal.dataPrism
  else
    Except.error (match stFinal.error with
      | some m => if m = "" then "Loading failed" else m
      | none => "Loading failed")

/-- `loadDataPrismFromCDN` (the active definition of `cdnLoader.ts`, with
`timeout = 30000`, `retries = 3`, `enableFallbacks = true` hardcoded).
`st`, `win` are the loader state and window when the call starts.  When the
call starts while another load is in flight (`st.isLoading`), its polling
wait depends on how that in-flight load ends; the pair `inflight` supplies
the loader state and window at that moment and is consulted only by that
branch. -/
def loadDataPrismFromCDN (env : LoadEnv) (st : LoaderState) (win : Window)
    (inflight : LoaderState × Window) : LoadOut :=
  if st.isLoaded then
    { result := Except.ok win.dataPrism, st := st, win := win, fetches := 0 }
  else if st.isLoading then
    { result := awaitInflight inflight.1 inflight.2,
      st := inflight.1, win := inflight.2, fetches := 0 }
  else
    let st1 : LoaderState := { st with isLoading := true, error := none }
    match ensureArrow env win with
    | Except.error m =>
      { result := Except.error ("Failed to load DataPrism: " ++ m),
        st := { st1 with error := some m, isLoading := false },
        win := win, fetches := 0 }
    | Except.ok win1 =>
      let out := runAttempts env win1 none 0 loaderRetries
      match out.success with
      | some win2 =>
        { result := Except.ok win2.dataPrism,
          st := { st1 with isLoaded := true, isLoading := false, loadTime := some 0 },
          win := win2, fetches := out.made }
      | none =>
        { result := Except.ok (some mockDataPrism),
          st := { st1 with isLoading := false },
          win := { win1 with dataPrism := some mockDataPrism },
          fetches := out.made }

/-- Two load calls issued concurrently before either resolves, starting from
a quiescent state: the first runs the fresh-load path; the second enters
after the first has set `isLoading` (the only point a second task can
observe between the first call's suspension points) and therefore takes the
polling branch, whose wait settles on the first call's final state — the
event loop is single threaded, so no other interleaving is possible. -/
def twoConcurrentLoads (env : LoadEnv) (st0 : LoaderState) (win0 : Window) :
    LoadOut × LoadOut :=
  let r1 := loadDataPrismFromCDN env st0 win0 (st0, win0)
  let midSt : LoaderState := { st0 with isLoading := true, error := none }
  let r2 := loadDataPrismFromCDN env midSt win0 (r1.st, r1.win)
  (r1, r2)

/-- An environment whose every script-insertion attempt fails. -/
def allFailEnv : LoadEnv :=
  { arrowImportOk := true,
    attempts := [AttemptOutcome.scriptFail "Script loading error",
                 AttemptOutcome.scriptFail "Script loading error",
                 AttemptOutcome.scriptFail "Script loading error"] }

/-- An empty window: no engine handle, no Arrow yet. -/
def emptyWindow : Window := { dataPrism := none, arrow := false }

end DataPrism

namespace DataPrism

/-- A CSV text assembled from explicit lines (header first), joined by the
newline separator — the shape "well-formed CSV input with a header row and
`r` data rows" quantifies over. -/
def csvOfLines (ls : List String) : String :=
  String.mk (joinChars '\n' (ls.map String.data))

/-- Whether an attempt outcome is a script failure. -/
def isScriptFail : AttemptOutcome → Bool
  | AttemptOutcome.scriptFail _ => true
  | AttemptOutcome.scriptOk _ => false

end DataPrism

namespace DataPrism

/-! ## Helper lemmas -/

theorem splitChars_ne_nil (sep : Char) (cs : List Char) : splitChars sep cs ≠ [] := by
  cases cs with
  | nil => simp [splitChars]
  | cons c cs =>
    simp only [splitChars]
    split
    · simp
    · cases h : splitChars sep cs <;> simp

theorem splitChars_joinChars (sep : Char) (gs : List (List Char)) (hne : gs ≠ [])
    (h : ∀ g ∈ gs, sep ∉ g) : splitChars sep (joinChars sep gs) = gs := by
  induction gs with
  | nil => exact absurd rfl hne
  | cons g gs ih =>
    cases gs with
    | nil =>
      simp only [joinChars]
      have hg : sep ∉ g := h g (by simp)
      clear h hne ih
      induction g with
      | nil => simp [splitChars]
      | cons c cs ihc =>
        have hc : ¬ c = sep := fun hcs => hg (hcs ▸ List.mem_cons_self c cs)
        have hcs : sep ∉ cs := fun hmem => hg (List.mem_cons_of_mem c hmem)
        simp only [splitChars, if_neg hc, ihc hcs]
    | cons g2 gs2 =>
      have hg : sep ∉ g := h g (by simp)
      have hrest : splitChars sep (joinChars sep (g2 :: gs2)) = g2 :: gs2 :=
        ih (by simp) (fun x hx => h x (List.mem_cons_of_mem g hx))
      simp only [joinChars]
      clear h hne ih
      induction g with
      | nil =>
        simp [splitChars, hrest]
      | cons c cs ihc =>
        have hc : ¬ c = sep := fun hcs => hg (hcs ▸ List.mem_cons_self c cs)
        have hcs : sep ∉ cs := fun hmem => hg (List.mem_cons_of_mem c hmem)
        have h2 := ihc hcs
        simp only [List.cons_append, splitChars, if_neg hc, List.append_eq] at h2 ⊢
        rw [h2]

theorem stringMk_data (s : String) : String.mk s.data = s := rfl

theorem except_bind_ok {α β ε : Type} (a : α) (f : α → Except ε β) :
    ((Except.ok a : Except ε α) >>= f) = f a := rfl

theorem jsSplit_csvOfLines (ls : List String) (hne : ls ≠ [])
    (h : ∀ l ∈ ls, '\n' ∉ l.data) : jsSplit (csvOfLines ls) '\n' = ls := by
  unfold jsSplit csvOfLines
  rw [show (String.mk (joinChars '\n' (ls.map String.data))).data =
        joinChars '\n' (ls.map String.data) from rfl]
  rw [splitChars_joinChars '\n' (ls.map String.data) (by simpa using hne)
    (by intro g hg; obtain ⟨l, hl, rfl⟩ := List.mem_map.mp hg; exact h l hl)]
  rw [List.map_map]
  have : (String.mk ∘ String.data) = id := funext fun s => stringMk_data s
  rw [this, List.map_id]

theorem jsGetProp_ok (v : JVal) (k : String) (h : ¬ v = JVal.null) :
    ∃ o, jsGetProp v k = Except.ok o := by
  cases v with
  | null => exact absurd rfl h
  | bool b => exact ⟨none, rfl⟩
  | num q => exact ⟨none, rfl⟩
  | str s =>
    simp only [jsGetProp]
    split
    · exact ⟨_, rfl⟩
    · exact ⟨_, rfl⟩
  | arr xs =>
    simp only [jsGetProp]
    split
    · exact ⟨_, rfl⟩
    · exact ⟨_, rfl⟩
  | obj fields => exact ⟨_, rfl⟩

theorem mapExcept_ok_of_forall {α β ε : Type} (f : α → Except ε β) (l : List α)
    (h : ∀ a ∈ l, ∃ b, f a = Except.ok b) : ∃ bs, mapExcept f l = Except.ok bs := by
  induction l with
  | nil => exact ⟨[], rfl⟩
  | cons a as ih =>
    obtain ⟨b, hb⟩ := h a (by simp)
    obtain ⟨bs, hbs⟩ := ih (fun x hx => h x (List.mem_cons_of_mem a hx))
    refine ⟨b :: bs, ?_⟩
    unfold mapExcept
    rw [hb, hbs]
    rfl

theorem mapExcept_eq_map {α β ε : Type} (f : α → Except ε β) (g : α → β) (l : List α)
    (h : ∀ a ∈ l, f a = Except.ok (g a)) : mapExcept f l = Except.ok (l.map g) := by
  induction l with
  | nil => rfl
  | cons a as ih =>
    have ha := h a (by simp)
    have has := ih (fun x hx => h x (List.mem_cons_of_mem a hx))
    unfold mapExcept
    rw [ha, has]
    rfl

theorem inferSample_eq_spec (data : List JVal) (k : String)
    (h : ∀ r ∈ data.take 10, ¬ r = JVal.null) :
    inferSample data k = Except.ok (specSample data k) := by
  unfold inferSample specSample
  have hmap : mapExcept (fun row => jsGetProp row k) (data.take 10) =
      Except.ok ((data.take 10).map (fun row => ((jsGetProp row k).toOption).join)) := by
    apply mapExcept_eq_map
    intro r hr
    obtain ⟨o, ho⟩ := jsGetProp_ok r k (h r hr)
    rw [ho]
    rfl
  rw [hmap]
  show Except.ok _ = Except.ok _
  rw [List.filterMap_map]
  rfl

theorem inferColumnType_eq_amended (data : List JVal) (k : String)
    (h : ∀ r ∈ data.take 10, ¬ r = JVal.null) :
    inferColumnType data k = Except.ok (specInferColumnTypeAmended data k) := by
  unfold inferColumnType specInferColumnTypeAmended
  rw [inferSample_eq_spec data k h]
  cases hs : specSample data k with
  | nil => rfl
  | cons v vs =>
    show (if (v :: vs).length = 0 then (pure ColType.string : Except String ColType)
        else if (v :: vs).all isNumericValue then pure ColType.number
        else if (v :: vs).all isBooleanValue then pure ColType.boolean
        else if (v :: vs).all jsDateParseValid then pure ColType.date
        else pure ColType.string) = _
    simp only [List.length_cons, List.isEmpty_cons, Nat.succ_ne_zero, if_false]
    split
    · rfl
    · split
      · rfl
      · split
        · rfl
        · rfl

theorem inferColumnType_ok (data : List JVal) (k : String)
    (h : ∀ r ∈ data.take 10, ¬ r = JVal.null) :
    ∃ t, inferColumnType data k = Except.ok t :=
  ⟨_, inferColumnType_eq_amended data k h⟩

theorem csvRow_ne_null (headers : List String) (line : String) :
    ¬ csvRow headers line = JVal.null := by
  unfold csvRow
  intro h
  cases h

end DataPrism

namespace DataPrism

theorem parseCSV_eq (text : String) :
    parseCSV text =
      (let lines := jsSplit (jsTrim text) '\n'
       let headers := (jsSplit (lines.headD "") ',').map processField
       let dataRows := (lines.drop 1).map (csvRow headers)
       Except.ok { data := dataRows,
                   columns := headers.map (fun n =>
                     ColumnDescriptor.mk n (specInferColumnTypeAmended dataRows n) true),
                   errors := [],
                   summary := { rowCount := dataRows.length, columnCount := headers.length,
                                memoryUsage := memoryUsageMB text } }) := by
  have hne : ¬ (jsSplit (jsTrim text) '\n').length = 0 := by
    rw [List.length_eq_zero]
    unfold jsSplit
    intro hmap
    exact splitChars_ne_nil '\n' (jsTrim text).data (List.map_eq_nil_iff.mp hmap)
  unfold parseCSV
  rw [if_neg hne]
  have hnonull : ∀ r ∈ (((jsSplit (jsTrim text) '\n').drop 1).map
      (csvRow ((jsSplit ((jsSplit (jsTrim text) '\n').headD "") ',').map processField))).take 10,
      ¬ r = JVal.null := by
    intro r hr
    have hr2 := List.mem_of_mem_take hr
    obtain ⟨line, _, rfl⟩ := List.mem_map.mp hr2
    exact csvRow_ne_null _ _
  have hcols := mapExcept_eq_map
    (fun name => do
      let t ← inferColumnType (((jsSplit (jsTrim text) '\n').drop 1).map
        (csvRow ((jsSplit ((jsSplit (jsTrim text) '\n').headD "") ',').map processField))) name
      pure (ColumnDescriptor.mk name t true))
    (fun n => ColumnDescriptor.mk n (specInferColumnTypeAmended
      (((jsSplit (jsTrim text) '\n').drop 1).map
        (csvRow ((jsSplit ((jsSplit (jsTrim text) '\n').headD "") ',').map processField))) n) true)
    ((jsSplit ((jsSplit (jsTrim text) '\n').headD "") ',').map processField)
    (by
      intro n _
      dsimp only
      rw [inferColumnType_eq_amended _ _ hnonull]
      rfl)
  simp only [hcols]
  rfl

end DataPrism

namespace DataPrism

theorem runAttempts_success_none (env : LoadEnv) (fuel : Nat) :
    ∀ (win : Window) (lastErr : Option String) (attempt : Nat),
    (∀ i, attempt ≤ i → i < attempt + fuel →
      isScriptFail (env.attempts.getD i (AttemptOutcome.scriptFail "Script loading error")) =
        true) →
    (runAttempts env win lastErr attempt fuel).success = none := by
  induction fuel with
  | zero => intro win lastErr attempt _; rfl
  | succ fuel ih =>
    intro win lastErr attempt h
    have hat := h attempt (Nat.le_refl _) (by omega)
    unfold runAttempts
    cases ho : env.attempts.getD attempt (AttemptOutcome.scriptFail "Script loading error") with
    | scriptFail m =>
      have := ih win (some m) (attempt + 1) (fun i h1 h2 => h i (by omega) (by omega))
      simpa using this
    | scriptOk sets =>
      rw [ho] at hat
      simp [isScriptFail] at hat

theorem load_isLoading_false (env : LoadEnv) (st : LoaderState) (win : Window)
    (inflight : LoaderState × Window)
    (hld : st.isLoaded = false) (hlg : st.isLoading = false) :
    (loadDataPrismFromCDN env st win inflight).st.isLoading = false := by
  unfold loadDataPrismFromCDN
  rw [hld, hlg]
  simp only [Bool.false_eq_true, if_false]
  cases harrow : ensureArrow env win with
  | error m => rfl
  | ok win1 =>
    cases hs : (runAttempts env win1 none 0 loaderRetries).success with
    | none => simp [hs]
    | some win2 => simp [hs]

theorem load_loaded_result (env : LoadEnv) (st : LoaderState) (win : Window)
    (inflight : LoaderState × Window)
    (hld : st.isLoaded = false) (hlg : st.isLoading = false)
    (hdone : (loadDataPrismFromCDN env st win inflight).st.isLoaded = true) :
    (loadDataPrismFromCDN env st win inflight).result =
      Except.ok (loadDataPrismFromCDN env st win inflight).win.dataPrism := by
  unfold loadDataPrismFromCDN at hdone ⊢
  rw [hld, hlg] at hdone ⊢
  simp only [Bool.false_eq_true, if_false] at hdone ⊢
  cases harrow : ensureArrow env win with
  | error m =>
    rw [harrow] at hdone
    dsimp only at hdone
    exact absurd hdone (by simp)
  | ok win1 =>
    rw [harrow] at hdone
    dsimp only at hdone ⊢
    cases hs : (runAttempts env win1 none 0 loaderRetries).success with
    | none =>
      rw [hs] at hdone
    | some win2 =>
      rfl

end DataPrism

namespace DataPrism

theorem load_fallback (env : LoadEnv) (st : LoaderState) (win : Window)
    (inflight : LoaderState × Window)
    (hld : st.isLoaded = false) (hlg : st.isLoading = false)
    (harrow : env.arrowImportOk = true)
    (hfail : ∀ i, i < loaderRetries →
      isScriptFail (env.attempts.getD i (AttemptOutcome.scriptFail "Script loading error")) =
        true) :
    (loadDataPrismFromCDN env st win inflight).result = Except.ok (some mockDataPrism) ∧
    (loadDataPrismFromCDN env st win inflight).win.dataPrism = some mockDataPrism ∧
    (loadDataPrismFromCDN env st win inflight).st.isLoaded = false ∧
    (loadDataPrismFromCDN env st win inflight).st.isLoading = false := by
  have hrun : ∀ w : Window, (runAttempts env w none 0 loaderRetries).success = none :=
    fun w => runAttempts_success_none env loaderRetries w none 0
      (fun i h1 h2 => hfail i (by omega))
  have hens : ∃ w, ensureArrow env win = Except.ok w := by
    unfold ensureArrow
    cases hwa : win.arrow with
    | true => exact ⟨win, by simp⟩
    | false => exact ⟨{ win with arrow := true }, by simp [harrow]⟩
  obtain ⟨win1, hw⟩ := hens
  unfold loadDataPrismFromCDN
  rw [hld, hlg]
  simp only [Bool.false_eq_true, if_false]
  rw [hw]
  dsimp only
  rw [hrun win1]
  exact ⟨rfl, rfl, rfl, rfl⟩

end DataPrism

namespace DataPrism

/-! ## Claim theorems -/

/-- C1: the claim states that every input that is empty after trimming makes
`parseCSV` throw the "CSV file is empty" error.  The code does the opposite:
`"".split("\n")` is `[""]`, so the emptiness check never fires and the
parser returns a dataset with zero rows and a single column whose name is
the empty string — this theorem evaluates the code on exactly the claimed
inputs. -/
theorem c1_parseCSV_empty_input_returns_dataset :
    (parseCSV "").map (fun d =>
        (d.data, d.columns, d.summary.rowCount, d.summary.columnCount)) =
      Except.ok ([], [ColumnDescriptor.mk "" ColType.string true], 0, 1) ∧
    (parseCSV " \n ").map (fun d =>
        (d.data, d.columns, d.summary.rowCount, d.summary.columnCount)) =
      Except.ok ([], [ColumnDescriptor.mk "" ColType.string true], 0, 1) := by
  exact ⟨by rfl, by rfl⟩

/-- C2: for `'[{"product":"Laptop","price":999.99,"inStock":true}]'` the
claim (and the repository's own skipped test) expects `inStock` to be
inferred as `boolean`; the code infers `number`, because `Number(true)` is
`1`, so the numeric check — which runs before the boolean check — accepts a
column of genuine booleans.  This theorem evaluates the code at that
input. -/
theorem c2_parseJSON_laptop_inStock_is_number :
    (parseJSON "[\x7b\"product\":\"Laptop\",\"price\":999.99,\"inStock\":true\x7d]").map
        (fun d => (d.summary.rowCount, d.columns.map (fun c => (c.name, c.type)))) =
      Except.ok (1, [("product", ColType.string), ("price", ColType.number),
                     ("inStock", ColType.number)]) := by
  rfl

/-- C9: the "CSV file is empty" branch of `parseCSV` is unreachable — the
split of any trimmed text on newline is non-empty, `parseCSV` in fact never
fails at all, and the empty input yields a dataset with zero rows and one
column named by the empty string. -/
theorem c9_csv_empty_branch_unreachable :
    (∀ text : String, 0 < (jsSplit (jsTrim text) '\n').length) ∧
    (∀ text : String, ∃ d, parseCSV text = Except.ok d) ∧
    (parseCSV "").map (fun d =>
        (d.summary.rowCount, d.columns.map (fun c => c.name))) = Except.ok (0, [""]) := by
  refine ⟨?_, ?_, by rfl⟩
  · intro text
    rw [List.length_pos]
    unfold jsSplit
    intro hmap
    exact splitChars_ne_nil '\n' (jsTrim text).data (List.map_eq_nil_iff.mp hmap)
  · intro text
    rw [parseCSV_eq]
    exact ⟨_, rfl⟩

/-- C10: every failure of `parseJSON` surfaces as the fixed message
"Invalid JSON format"; in particular for the valid-JSON input `"[]"` the
body's own "JSON file contains no data" error is swallowed by the `catch`
and re-thrown as the fixed message. -/
theorem c10_parseJSON_single_fixed_error :
    (∀ text e, parseJSON text = Except.error e → e = "Invalid JSON format") ∧
    parseJSONBody "[]" = Except.error "JSON file contains no data" ∧
    parseJSON "[]" = Except.error "Invalid JSON format" := by
  refine ⟨?_, by rfl, by rfl⟩
  intro text e h
  unfold parseJSON at h
  cases hb : parseJSONBody text with
  | ok d => rw [hb] at h; cases h
  | error m => rw [hb] at h; cases h; rfl

/-- Witness for C10 at the malformed input `":"`. -/
theorem c10_witness :
    parseJSON ":" = Except.error "Invalid JSON format" ∧
    "Invalid JSON format" = "Invalid JSON format" :=
  ⟨by rfl, c10_parseJSON_single_fixed_error.1 ":" "Invalid JSON format" (by rfl)⟩

/-- C5 counterexample: the claim says every scalar top-level JSON value
makes `parseJSON` throw; the number `5` instead yields a one-row,
zero-column dataset. -/
theorem c5_counterexample_scalar_number_ok :
    (parseJSON "5").map (fun d => (d.summary.rowCount, d.summary.columnCount)) =
      Except.ok (1, 0) := by
  rfl

end DataPrism

namespace DataPrism

/-- C5 amended: `parseJSON` throws (as "Invalid JSON format") for malformed
input and for a top-level `null` — the only scalar for which the access
`Object.keys(data[0])` throws — while a top-level number or boolean yields a
one-row dataset with zero columns and a top-level string yields a one-row
dataset (its columns coming from the string's index keys). -/
theorem c5_parseJSON_scalar_amended :
    ∀ text v, jsonParse text = Except.ok v →
      (v = JVal.null → parseJSON text = Except.error "Invalid JSON format") ∧
      (∀ q, v = JVal.num q → (parseJSON text).map
          (fun d => (d.summary.rowCount, d.summary.columnCount)) = Except.ok (1, 0)) ∧
      (∀ b, v = JVal.bool b → (parseJSON text).map
          (fun d => (d.summary.rowCount, d.summary.columnCount)) = Except.ok (1, 0)) ∧
      (∀ s, v = JVal.str s → (parseJSON text).map
          (fun d => d.summary.rowCount) = Except.ok 1) := by
  intro text v hjson
  refine ⟨?_, ?_, ?_, ?_⟩
  · rintro rfl
    unfold parseJSON parseJSONBody
    rw [hjson]
    rfl
  · rintro q rfl
    unfold parseJSON parseJSONBody
    rw [hjson]
    rfl
  · rintro b rfl
    unfold parseJSON parseJSONBody
    rw [hjson]
    rfl
  · rintro s rfl
    have hok : ∀ k ∈ (List.range s.length).map (fun i => String.mk (natDigits i)),
        ∃ c, (do
          let t ← inferColumnType [JVal.str s] k
          pure (ColumnDescriptor.mk k t true) : Except String ColumnDescriptor) =
            Except.ok c := by
      intro k _hk
      obtain ⟨t, ht⟩ := inferColumnType_ok [JVal.str s] k
        (by intro r hr; simp at hr; subst hr; intro h; cases h)
      exact ⟨ColumnDescriptor.mk k t true, by rw [ht]; rfl⟩
    obtain ⟨cols, hcols⟩ := mapExcept_ok_of_forall _ _ hok
    unfold parseJSON parseJSONBody
    rw [hjson]
    simp only [except_bind_ok, List.length_singleton, List.headD_cons, jsObjectKeys,
      Nat.one_ne_zero, if_false, hcols]
    rfl

/-- Witness for C5 at the concrete scalars `"null"` and `"5"`. -/
theorem c5_witness :
    parseJSON "null" = Except.error "Invalid JSON format" ∧
    (parseJSON "5").map (fun d => (d.summary.rowCount, d.summary.columnCount)) =
      Except.ok (1, 0) :=
  ⟨(c5_parseJSON_scalar_amended "null" JVal.null (by rfl)).1 rfl,
   (c5_parseJSON_scalar_amended "5" (JVal.num 5) (by with_unfolding_all rfl)).2.1 5 rfl⟩

end DataPrism

namespace DataPrism

/-- C4 counterexample: on the parsed dataset of the CSV text
`"a\nInfinity"` the code infers `number` for column `a` (its check is
`!isNaN(Number(v))`, and `Number("Infinity")` is `Infinity`, not `NaN`),
while the claim's reference definition — which demands conversion to a
finite number — yields `string`. -/
theorem c4_counterexample_infinity :
    (parseCSV "a\nInfinity").map
        (fun d => (d.data, d.columns.map (fun c => (c.name, c.type)))) =
      Except.ok ([JVal.obj [("a", JVal.str "Infinity")]], [("a", ColType.number)]) ∧
    specInferColumnType [JVal.obj [("a", JVal.str "Infinity")]] "a" = ColType.string := by
  exact ⟨by rfl, by rfl⟩

/-- C4 amended: `inferColumnType` agrees with the reference definition once
its numeric test is read as `Number(v)` not being `NaN` (so `"Infinity"`
counts as numeric) — stated for every dataset whose first 10 rows contain no
`null` row, which covers every dataset a parse can produce together with a
column list; and values past the 10th row never influence the result. -/
theorem c4_inferColumnType_matches_reference :
    (∀ (data : List JVal) (columnName : String),
      (∀ r ∈ data.take 10, ¬ r = JVal.null) →
      inferColumnType data columnName =
        Except.ok (specInferColumnTypeAmended data columnName)) ∧
    (∀ (data : List JVal) (columnName : String),
      inferColumnType (data.take 10) columnName = inferColumnType data columnName) := by
  constructor
  · exact fun data c h => inferColumnType_eq_amended data c h
  · intro data c
    unfold inferColumnType inferSample
    rw [List.take_take]
    norm_num

/-- Witness for C4 at a one-row dataset with a numeric string. -/
theorem c4_witness :
    inferColumnType [JVal.obj [("a", JVal.str "25")]] "a" =
      Except.ok (specInferColumnTypeAmended [JVal.obj [("a", JVal.str "25")]] "a") :=
  c4_inferColumnType_matches_reference.1 [JVal.obj [("a", JVal.str "25")]] "a"
    (by intro r hr; simp at hr; subst hr; intro h; cases h)

end DataPrism

namespace DataPrism

/-- C6: for every well-formed CSV input — a header line followed by `r` data
lines, none containing a newline, the whole text unaffected by trimming —
`parse` succeeds with `rowCount = r`, `columnCount` the number of header
fields, and `columns` listing the processed header names in header order. -/
theorem c6_parseCSV_counts_and_names (l0 : String) (rest : List String)
    (hnl : ∀ l ∈ l0 :: rest, '\n' ∉ l.data)
    (htrim : jsTrim (csvOfLines (l0 :: rest)) = csvOfLines (l0 :: rest)) :
    (parseCSV (csvOfLines (l0 :: rest))).map (fun d =>
        (d.summary.rowCount, d.summary.columnCount, d.columns.map (fun c => c.name))) =
      Except.ok (rest.length, ((jsSplit l0 ',').map processField).length,
        (jsSplit l0 ',').map processField) := by
  rw [parseCSV_eq, htrim, jsSplit_csvOfLines _ (by simp) hnl]
  simp only [List.headD_cons, List.drop_one, List.tail_cons]
  simp [Except.map, List.map_map, Function.comp, List.length_map]

/-- Witness for C6 at the three-line sample CSV. -/
theorem c6_witness :
    (parseCSV (csvOfLines ["name,age,city", "Alice,25,New York", "Bob,30,Boston"])).map
        (fun d =>
          (d.summary.rowCount, d.summary.columnCount, d.columns.map (fun c => c.name))) =
      Except.ok (2, 3, ["name", "age", "city"]) := by
  have h := c6_parseCSV_counts_and_names "name,age,city" ["Alice,25,New York", "Bob,30,Boston"]
    (by decide) (by rfl)
  exact h

/-- C7: a file whose extension (the lowercased text after the last dot of
its name, as the component computes it) is not accepted is rejected — with a
message naming that extension and the accepted set — no matter what the
file's contents or size are, so before any read of the contents; and the
parsing strategy `parseFile` applies depends only on the extension and the
contents. -/
theorem c7_extension_dispatch :
    (∀ (name : String) (size : Nat) (content : String),
      extOf name ∉ defaultAcceptedTypes →
      handleFile defaultAcceptedTypes 10 (JSFile.mk name size content) =
        Except.error ("File type " ++ extOf name ++ " not supported. Accepted types: " ++
          joinCommaSpace defaultAcceptedTypes)) ∧
    joinCommaSpace defaultAcceptedTypes = ".csv, .json, .txt" ∧
    (∀ f g : JSFile, extOf f.name = extOf g.name → f.content = g.content →
      parseFile f = parseFile g) := by
  refine ⟨?_, by rfl, ?_⟩
  · intro name size content hna
    unfold handleFile
    rw [if_pos hna]
  · intro f g h1 h2
    unfold parseFile
    rw [h1, h2]

/-- Witness for C7 at a `.pdf` file. -/
theorem c7_witness :
    handleFile defaultAcceptedTypes 10 (JSFile.mk "test.pdf" 100 "content") =
      Except.error "File type .pdf not supported. Accepted types: .csv, .json, .txt" := by
  have h := c7_extension_dispatch.1 "test.pdf" 100 "content" (by decide)
  rw [h]
  rfl

end DataPrism

namespace DataPrism

theorem load_whileLoading (env : LoadEnv) (st : LoaderState) (win : Window)
    (inflight : LoaderState × Window)
    (hld : st.isLoaded = false) (hlg : st.isLoading = true) :
    loadDataPrismFromCDN env st win inflight =
      { result := awaitInflight inflight.1 inflight.2,
        st := inflight.1, win := inflight.2, fetches := 0 } := by
  unfold loadDataPrismFromCDN
  rw [hld, hlg]
  simp

/-- C3 counterexample: with every network attempt failing, the call resolves
with the installed stub — but the loader state is not `Loaded`: `isLoaded`
stays `false` (the fallback return path never sets it), refuting the claim's
"the loader reports success (state Loaded)". -/
theorem c3_counterexample_state_not_loaded :
    (loadDataPrismFromCDN allFailEnv initialLoaderState emptyWindow
        (initialLoaderState, emptyWindow)).result = Except.ok (some mockDataPrism) ∧
    (loadDataPrismFromCDN allFailEnv initialLoaderState emptyWindow
        (initialLoaderState, emptyWindow)).st.isLoaded = false := by
  exact ⟨by rfl, by rfl⟩

/-- C3 amended: when Arrow is available, every scripted attempt fails and
the loader starts quiescent, the call succeeds with the stub handle
(`isMock = true`) installed in the global namespace — but the loader's own
state does not transition to `Loaded`: `isLoaded` remains `false` (only
`isLoading` is cleared; the stub object's own `isLoaded` field is `true`). -/
theorem c3_loader_fallback (env : LoadEnv) (st : LoaderState) (win : Window)
    (inflight : LoaderState × Window)
    (hld : st.isLoaded = false) (hlg : st.isLoading = false)
    (harrow : env.arrowImportOk = true)
    (hfail : ∀ i, i < loaderRetries →
      isScriptFail (env.attempts.getD i (AttemptOutcome.scriptFail "Script loading error")) =
        true) :
    (loadDataPrismFromCDN env st win inflight).result = Except.ok (some mockDataPrism) ∧
    (loadDataPrismFromCDN env st win inflight).win.dataPrism = some mockDataPrism ∧
    mockDataPrism.isMock = true ∧
    mockDataPrism.isLoadedFlag = true ∧
    (loadDataPrismFromCDN env st win inflight).st.isLoaded = false ∧
    (loadDataPrismFromCDN env st win inflight).st.isLoading = false := by
  obtain ⟨h1, h2, h3, h4⟩ := load_fallback env st win inflight hld hlg harrow hfail
  exact ⟨h1, h2, rfl, rfl, h3, h4⟩

/-- Witness for C3 at the all-attempts-fail environment. -/
theorem c3_witness :
    (loadDataPrismFromCDN allFailEnv initialLoaderState emptyWindow
        (initialLoaderState, emptyWindow)).win.dataPrism = some mockDataPrism ∧
    mockDataPrism.isMock = true :=
  ⟨(c3_loader_fallback allFailEnv initialLoaderState emptyWindow
      (initialLoaderState, emptyWindow) rfl rfl rfl
      (by
        intro i hi
        match i, hi with
        | 0, _ => rfl
        | 1, _ => rfl
        | 2, _ => rfl)).2.1,
   (c3_loader_fallback allFailEnv initialLoaderState emptyWindow
      (initialLoaderState, emptyWindow) rfl rfl rfl
      (by
        intro i hi
        match i, hi with
        | 0, _ => rfl
        | 1, _ => rfl
        | 2, _ => rfl)).2.2.1⟩

/-- C8 counterexample: two concurrent calls in the all-attempts-fail
environment — the first resolves with the stub, but the second caller's
polling wait sees `isLoaded` still `false` once the in-flight load settles
and rejects with "Loading failed", so the two callers do not receive the
identical resulting handle. -/
theorem c8_counterexample_waiter_rejected :
    (twoConcurrentLoads allFailEnv initialLoaderState emptyWindow).1.result =
      Except.ok (some mockDataPrism) ∧
    (twoConcurrentLoads allFailEnv initialLoaderState emptyWindow).2.result =
      Except.error "Loading failed" := by
  exact ⟨by rfl, by rfl⟩

/-- C8 amended: of two load calls issued concurrently before either
resolves, the second performs no script-insertion attempt of its own (it
observes `isLoading` and polls); and whenever the first call's load ends
with a successful network attempt (`isLoaded = true`), both callers resolve
with the identical handle from the global namespace.  (When the first call
succeeds only through the mock fallback, the second caller's wait rejects —
see the counterexample.) -/
theorem c8_concurrent_single_fetch (env : LoadEnv) (st0 : LoaderState) (win0 : Window)
    (hld : st0.isLoaded = false) (hlg : st0.isLoading = false) :
    (twoConcurrentLoads env st0 win0).2.fetches = 0 ∧
    ((twoConcurrentLoads env st0 win0).1.st.isLoaded = true →
      (twoConcurrentLoads env st0 win0).1.result =
        Except.ok (twoConcurrentLoads env st0 win0).1.win.dataPrism ∧
      (twoConcurrentLoads env st0 win0).2.result = (twoConcurrentLoads env st0 win0).1.result) := by
  have hmid : ({ st0 with isLoading := true, error := none } : LoaderState).isLoaded = false := hld
  have h2 := load_whileLoading env { st0 with isLoading := true, error := none } win0
    ((loadDataPrismFromCDN env st0 win0 (st0, win0)).st,
     (loadDataPrismFromCDN env st0 win0 (st0, win0)).win) hmid rfl
  unfold twoConcurrentLoads
  dsimp only
  rw [h2]
  refine ⟨rfl, ?_⟩
  intro hdone
  have hres := load_loaded_result env st0 win0 (st0, win0) hld hlg hdone
  have hnl := load_isLoading_false env st0 win0 (st0, win0) hld hlg
  refine ⟨hres, ?_⟩
  unfold awaitInflight
  rw [hnl, hdone]
  simp [hres]

/-- Witness for C8 at an environment whose first attempt succeeds. -/
theorem c8_witness :
    (twoConcurrentLoads
        (LoadEnv.mk true [AttemptOutcome.scriptOk (some (Handle.mk "real" true false))])
        initialLoaderState emptyWindow).2.fetches = 0 ∧
    (twoConcurrentLoads
        (LoadEnv.mk true [AttemptOutcome.scriptOk (some (Handle.mk "real" true false))])
        initialLoaderState emptyWindow).2.result =
      (twoConcurrentLoads
        (LoadEnv.mk true [AttemptOutcome.scriptOk (some (Handle.mk "real" true false))])
        initialLoaderState emptyWindow).1.result :=
  ⟨(c8_concurrent_single_fetch
      (LoadEnv.mk true [AttemptOutcome.scriptOk (some (Handle.mk "real" true false))])
      initialLoaderState emptyWindow rfl rfl).1,
   ((c8_concurrent_single_fetch
      (LoadEnv.mk true [AttemptOutcome.scriptOk (some (Handle.mk "real" true false))])
      initialLoaderState emptyWindow rfl rfl).2 (by rfl)).2⟩

end DataPrism
